import Mathlib

/-!
Verification of the station-position resolution and shot-projection engine of
the klmn-caves repository (files `ice_process.py` and `ice2dat.py`).

The Python code is shallowly embedded: spreadsheet cell values become rational
or real numbers, Python `None`/empty-cell values become `Option`, Python float
arithmetic becomes real arithmetic (`Real.sin`/`Real.cos` for `math.sin`/
`math.cos`), and the mutable station dictionary becomes an insertion-ordered
association list with Python-dict update semantics.
-/

open scoped Classical

namespace IceProcess

/-- Spreadsheet numeric cell: `none` models a missing column or an empty cell
(Python `None` or `''`), `some v` a numeric value. -/
def cellVal (c : Option ℝ) : ℝ := c.getD 0

/-- Python truthiness of a numeric cell after defaulting: `row.get(k, 0.0)` /
`row.get(k, None)` is truthy exactly when the cell holds a nonzero number
(`None`, `''` and `0.0` are all falsy). -/
def cellTruthy (c : Option ℝ) : Prop := c.getD 0 ≠ 0

/-- Python truthiness of the `name` argument of `Point.shot` (a string:
`None` and `''` are falsy). -/
def nameTruthy : Option String → Bool
  | none => false
  | some s => s != ""

/-- Degrees to radians, `math.radians(deg) = deg * pi / 180`. -/
noncomputable def radians (deg : ℝ) : ℝ := deg * (Real.pi / 180)

/-- Python float `a % b` for positive `b`: `a - b * floor(a / b)`. -/
noncomputable def fmod (a b : ℝ) : ℝ := a - b * (⌊a / b⌋ : ℝ)

/-- The `Point` class of `ice_process.py`: a 3D coordinate with an optional
station name. -/
structure Point where
  x : ℝ
  y : ℝ
  z : ℝ
  name : Option String

/-- The pure displacement part of `Point.shot` (`ice_process.py` lines
205-209): horizontal run `hd = dist*cos(inc)`, offsets
`(hd*sin(azm), hd*cos(azm), dist*sin(inc))`, angles in degrees. The result is
a fresh `Point` whose name is `None`. -/
noncomputable def shootBase (p : Point) (dist azm inc : ℝ) : Point :=
  let hd := dist * Real.cos (radians inc)
  let x2 := hd * Real.sin (radians azm)
  let y2 := hd * Real.cos (radians azm)
  let z2 := dist * Real.sin (radians inc)
  ⟨p.x + x2, p.y + y2, p.z + z2, none⟩

/-- `Point.shot(dist, azm, inc, down=0.0, back=0.0, name=None)` of
`ice_process.py` lines 204-216.  The source's recursive calls
`p.shot(down, 0, -90)` and `p.shot(back, azm, 0)` carry zero `down`/`back`
and no name, so each reduces to the bare displacement `shootBase`; the
definition unfolds that bounded recursion.  `if down:` / `if back:` are
Python float truthiness, i.e. a nonzero test, and `if name:` sets the name
only when the string is truthy. -/
noncomputable def Point.shot (p : Point) (dist azm inc down back : ℝ)
    (name : Option String) : Point :=
  let p1 := shootBase p dist azm inc
  let p2 := if down ≠ 0 then shootBase p1 down 0 (-90) else p1
  let p3 := if back ≠ 0 then shootBase p2 back azm 0 else p2
  if nameTruthy name then ⟨p3.x, p3.y, p3.z, name⟩ else p3

/-- The `coords` property of `Point`. -/
def Point.coords (p : Point) : ℝ × ℝ × ℝ := (p.x, p.y, p.z)

/-! Trigonometric helper lemmas about `radians` and the reversed azimuth. -/

theorem radians_zero : radians 0 = 0 := by
  unfold radians; ring

theorem radians_neg (d : ℝ) : radians (-d) = -radians d := by
  unfold radians; ring

theorem radians_90 : radians 90 = Real.pi / 2 := by
  unfold radians; ring

theorem sin_radians_90 : Real.sin (radians 90) = 1 := by
  rw [radians_90, Real.sin_pi_div_two]

theorem cos_radians_90 : Real.cos (radians 90) = 0 := by
  rw [radians_90, Real.cos_pi_div_two]

theorem cos_radians_neg_90 : Real.cos (radians (-90)) = 0 := by
  rw [radians_neg, Real.cos_neg, cos_radians_90]

theorem radians_fmod_rev (az : ℝ) :
    radians (fmod (az + 180) 360) =
      (radians az + Real.pi) + ((-⌊(az + 180) / 360⌋ : ℤ) : ℝ) * (2 * Real.pi) := by
  unfold radians fmod
  push_cast
  ring

theorem sin_radians_rev (az : ℝ) :
    Real.sin (radians (fmod (az + 180) 360)) = -Real.sin (radians az) := by
  rw [radians_fmod_rev, Real.sin_add_int_mul_two_pi, Real.sin_add_pi]

theorem cos_radians_rev (az : ℝ) :
    Real.cos (radians (fmod (az + 180) 360)) = -Real.cos (radians az) := by
  rw [radians_fmod_rev, Real.cos_add_int_mul_two_pi, Real.cos_add_pi]

/-- A plain shot (zero `down`/`back`, no name) is the bare displacement. -/
theorem shot_plain (p : Point) (dist azm inc : ℝ) :
    Point.shot p dist azm inc 0 0 none = shootBase p dist azm inc := by
  unfold Point.shot
  simp [nameTruthy]

end IceProcess

namespace IceProcess

/-- C4: `Point.shot` with no auxiliary measurements moves the origin by
`(h*sin(azm), h*cos(azm), dist*sin(inc))` with `h = dist*cos(inc)` (compass
azimuth, degrees), and in particular a shot of length 10 at bearing 90 and
inclination 0 from the origin lands at `(10, 0, 0)`. -/
theorem shot_formula_and_east (p : Point) (dist azm inc : ℝ) :
    Point.shot p dist azm inc 0 0 none =
      ⟨p.x + dist * Real.cos (radians inc) * Real.sin (radians azm),
       p.y + dist * Real.cos (radians inc) * Real.cos (radians azm),
       p.z + dist * Real.sin (radians inc), none⟩ ∧
    Point.shot ⟨0, 0, 0, none⟩ 10 90 0 0 0 none = ⟨10, 0, 0, none⟩ := by
  constructor
  · rw [shot_plain]
    unfold shootBase
    rfl
  · rw [shot_plain]
    unfold shootBase
    simp [radians_zero, sin_radians_90, cos_radians_90]

/-- C7: a vertical shot does not depend on the azimuth, at inclination 90
and likewise at inclination -90 (the down-shot case), and from the origin an
upward vertical shot of length 5 lands at `(0, 0, 5)` for every azimuth. -/
theorem shot_vertical_azimuth_independent (p : Point) (d a1 a2 : ℝ) :
    Point.shot p d a1 90 0 0 none = Point.shot p d a2 90 0 0 none ∧
    Point.shot p d a1 (-90) 0 0 none = Point.shot p d a2 (-90) 0 0 none ∧
    ∀ a : ℝ, Point.shot ⟨0, 0, 0, none⟩ 5 a 90 0 0 none = ⟨0, 0, 5, none⟩ := by
  refine ⟨?_, ?_, ?_⟩
  · rw [shot_plain, shot_plain]
    unfold shootBase
    simp [cos_radians_90]
  · rw [shot_plain, shot_plain]
    unfold shootBase
    simp [cos_radians_neg_90]
  · intro a
    rw [shot_plain]
    unfold shootBase
    simp [cos_radians_90, sin_radians_90]

/-- C3: shooting forward and then shooting back with the reversed sight
(azimuth `(az+180) mod 360`, inclination `-inc`) returns to the origin
point's coordinates, exactly, in real arithmetic. -/
theorem shot_round_trip (p : Point) (d az inc : ℝ) :
    (Point.shot (Point.shot p d az inc 0 0 none) d (fmod (az + 180) 360)
        (-inc) 0 0 none).coords = p.coords := by
  rw [shot_plain, shot_plain]
  unfold shootBase Point.coords
  simp only [sin_radians_rev, cos_radians_rev, radians_neg, Real.sin_neg, Real.cos_neg,
    Prod.mk.injEq]
  refine ⟨by ring, by ring, by ring⟩

end IceProcess

namespace IceProcess

/-- One row of the tie-in worksheet as read by `excel_tiein`
(`ice_process.py` lines 242-255): columns `From`, `To`, `Dist m`, `Azm`,
`Inc`, `Comment`, and the optional anchor columns `UTM East`, `UTM North`,
`Alt m`.  `alt = none` models an `Alt m` cell that is missing or `''` (the
source's `not in (None, '')` test); a present `Alt m` value, zero included,
marks the row's `To` station as a fixed anchor. -/
structure TieRow where
  frm : String
  dst : String
  dist : ℝ
  azm : ℝ
  inc : ℝ
  comment : String
  east : Option ℝ
  north : Option ℝ
  alt : Option ℝ

/-- The mutable `stations` dict: insertion-ordered association list from
station name to `Point` or the unresolved sentinel `None`. -/
abbrev Stations := List (String × Option Point)

/-- Python `stations.get(n, None)`: value at the first (unique) binding of
the key, `None` when absent. -/
def dictGetD : Stations → String → Option Point
  | [], _ => none
  | kv :: rest, n => if kv.1 == n then kv.2 else dictGetD rest n

/-- Python `stations[n] = v`: replace the value at the existing binding in
place (dict insertion order is kept), else append the new key at the end. -/
def dictSet : Stations → String → Option Point → Stations
  | [], n, v => [(n, v)]
  | kv :: rest, n, v => if kv.1 == n then (n, v) :: rest else kv :: dictSet rest n v

/-- Station names present in the table. -/
def keys (st : Stations) : List String := st.map (fun kv => kv.1)

/-- The first, seeding loop of `excel_tiein` (lines 242-248), one row:
`stations[From] = stations.get(From, None)`, then either install the fixed
anchor `Point(UTM East, UTM North, Alt m)` at `To` (when `Alt m` is present)
or `stations[To] = stations.get(To, None)`. -/
def initStep (st : Stations) (row : TieRow) : Stations :=
  let st1 := dictSet st row.frm (dictGetD st row.frm)
  match row.alt with
  | some a => dictSet st1 row.dst (some ⟨cellVal row.east, cellVal row.north, a, none⟩)
  | none => dictSet st1 row.dst (dictGetD st1 row.dst)

/-- The seeding loop of `excel_tiein` over all rows. -/
def initStations (rows : List TieRow) : Stations :=
  rows.foldl initStep []

/-- The body of the propagation `for` loop of `excel_tiein` (lines 252-265),
one row: skip if both endpoints are resolved, shoot forward if only `From`
is resolved, shoot the reversed sight if only `To` is resolved, and do
nothing (the source prints a diagnostic) if neither is. -/
noncomputable def propStep (st : Stations) (row : TieRow) : Stations :=
  match dictGetD st row.frm, dictGetD st row.dst with
  | some _, some _ => st
  | some fp, none =>
      dictSet st row.dst (some (fp.shot row.dist row.azm row.inc 0 0 none))
  | none, some tp =>
      dictSet st row.frm
        (some (tp.shot row.dist (fmod (row.azm + 180) 360) (-1 * row.inc) 0 0 none))
  | none, none => st

/-- One full propagation pass over the tie-in rows in original order. -/
noncomputable def onePass (rows : List TieRow) (st : Stations) : Stations :=
  rows.foldl propStep st

/-- Python `None in stations.values()`. -/
def hasUnresolved (st : Stations) : Bool :=
  st.any (fun kv => kv.2.isNone)

/-- Outcome of the resolution run: `ok` is the returned station table (we
additionally record how many passes ran, which the source exposes only in
its diagnostics), `err` is the raised `Exception('Unable to georeference all
stations after %d passes!  %s')`, carrying the pass count and the partial
table embedded in the message. -/
inductive ResolveOutcome where
  | ok : Stations → Nat → ResolveOutcome
  | err : Nat → Stations → ResolveOutcome

/-- The `while None in stations.values()` loop of `excel_tiein` (lines
250-268): run a pass, increment `passes`, raise once `passes > 5`. -/
noncomputable def resolveLoop (rows : List TieRow) (st : Stations) (passes : Nat) :
    ResolveOutcome :=
  if hasUnresolved st then
    let st1 := onePass rows st
    if h : passes + 1 > 5 then ResolveOutcome.err (passes + 1) st1
    else resolveLoop rows st1 (passes + 1)
  else ResolveOutcome.ok st passes
termination_by 6 - passes
decreasing_by omega

/-- `excel_tiein` of `ice_process.py` (lines 236-270): seed the table from
the rows, then propagate with the bounded pass loop. -/
noncomputable def excel_tiein (rows : List TieRow) : ResolveOutcome :=
  resolveLoop rows (initStations rows) 0

/-- The station table carried by either outcome (the return value, or the
partial table embedded in the raised message). -/
def outTable : ResolveOutcome → Stations
  | .ok st _ => st
  | .err _ st => st

/-! Unfolding lemmas for the three ways one iteration of the while loop can
go. -/

theorem resolveLoop_done (rows : List TieRow) (st : Stations) (passes : Nat)
    (h : hasUnresolved st = false) :
    resolveLoop rows st passes = ResolveOutcome.ok st passes := by
  unfold resolveLoop
  simp [h]

theorem resolveLoop_raise (rows : List TieRow) (st : Stations) (passes : Nat)
    (h1 : hasUnresolved st = true) (h2 : passes + 1 > 5) :
    resolveLoop rows st passes = ResolveOutcome.err (passes + 1) (onePass rows st) := by
  unfold resolveLoop
  simp [h1, h2]

theorem resolveLoop_continue (rows : List TieRow) (st : Stations) (passes : Nat)
    (h1 : hasUnresolved st = true) (h2 : ¬ passes + 1 > 5) :
    resolveLoop rows st passes = resolveLoop rows (onePass rows st) (passes + 1) := by
  conv =>
    lhs
    unfold resolveLoop
  simp [h1, h2]

/-! Dictionary lemmas. -/

theorem dictGetD_dictSet_self (st : Stations) (n : String) (v : Option Point) :
    dictGetD (dictSet st n v) n = v := by
  induction st with
  | nil => simp [dictSet, dictGetD]
  | cons kv rest ih =>
      by_cases hk : kv.1 = n
      · simp [dictSet, dictGetD, hk]
      · simp [dictSet, dictGetD, hk, ih]

theorem dictGetD_dictSet_ne (st : Stations) (m n : String) (v : Option Point)
    (h : m ≠ n) : dictGetD (dictSet st n v) m = dictGetD st m := by
  have h2 : n ≠ m := Ne.symm h
  induction st with
  | nil => simp [dictSet, dictGetD, h2]
  | cons kv rest ih =>
      by_cases hk : kv.1 = n
      · have hk2 : ¬ kv.1 = m := by rw [hk]; exact h2
        simp [dictSet, dictGetD, hk, hk2, h2]
      · by_cases hk2 : kv.1 = m <;> simp [dictSet, dictGetD, hk, hk2, h, h2, ih]

theorem mem_keys_dictSet (st : Stations) (m n : String) (v : Option Point) :
    m ∈ keys (dictSet st n v) ↔ m ∈ keys st ∨ m = n := by
  induction st with
  | nil => simp [dictSet, keys]
  | cons kv rest ih =>
      by_cases hk : kv.1 = n
      · subst hk
        simp [dictSet, keys]
        tauto
      · simp [dictSet, keys, hk] at ih ⊢
        tauto

theorem nodup_keys_dictSet (st : Stations) (n : String) (v : Option Point) :
    (keys st).Nodup → (keys (dictSet st n v)).Nodup := by
  induction st with
  | nil =>
      intro _
      simp [dictSet, keys]
  | cons kv rest ih =>
      intro h
      simp only [keys, List.map_cons, List.nodup_cons] at h
      by_cases hk : kv.1 = n
      · subst hk
        have hset : dictSet (kv :: rest) kv.1 v = (kv.1, v) :: rest := by
          simp [dictSet]
        rw [hset]
        simp only [keys, List.map_cons, List.nodup_cons]
        exact ⟨by simpa [keys] using h.1, by simpa [keys] using h.2⟩
      · have hset : dictSet (kv :: rest) n v = kv :: dictSet rest n v := by
          simp [dictSet, hk]
        rw [hset]
        simp only [keys, List.map_cons, List.nodup_cons]
        refine ⟨?_, ih (by simpa [keys] using h.2)⟩
        intro hmem
        rcases (mem_keys_dictSet rest kv.1 n v).mp (by simpa [keys] using hmem) with hm | he
        · exact h.1 (by simpa [keys] using hm)
        · exact hk he

/-! Preservation: a station once resolved is never reassigned by propagation. -/

theorem propStep_preserves (st : Stations) (row : TieRow) (key : String)
    (p : Point) (h : dictGetD st key = some p) :
    dictGetD (propStep st row) key = some p := by
  unfold propStep
  cases hf : dictGetD st row.frm <;> cases ht : dictGetD st row.dst <;> simp
  · exact h
  · have hne : key ≠ row.frm := fun he => by rw [he, hf] at h; exact Option.noConfusion h
    rw [dictGetD_dictSet_ne st key row.frm _ hne]
    exact h
  · have hne : key ≠ row.dst := fun he => by rw [he, ht] at h; exact Option.noConfusion h
    rw [dictGetD_dictSet_ne st key row.dst _ hne]
    exact h
  · exact h

theorem onePass_preserves (rows : List TieRow) (st : Stations) (key : String)
    (p : Point) (h : dictGetD st key = some p) :
    dictGetD (onePass rows st) key = some p := by
  unfold onePass
  induction rows generalizing st with
  | nil => exact h
  | cons row rest ih =>
      simp only [List.foldl_cons]
      exact ih (propStep st row) (propStep_preserves st row key p h)

theorem resolveLoop_preserves_aux (rows : List TieRow) :
    ∀ (n passes : Nat) (st : Stations) (key : String) (p : Point),
      6 - passes ≤ n → dictGetD st key = some p →
      dictGetD (outTable (resolveLoop rows st passes)) key = some p := by
  intro n
  induction n with
  | zero =>
      intro passes st key p hn h
      have h6 : passes + 1 > 5 := by omega
      cases hu : hasUnresolved st with
      | false => rw [resolveLoop_done rows st passes hu]; exact h
      | true =>
          rw [resolveLoop_raise rows st passes hu h6]
          exact onePass_preserves rows st key p h
  | succ m ih =>
      intro passes st key p hn h
      cases hu : hasUnresolved st with
      | false => rw [resolveLoop_done rows st passes hu]; exact h
      | true =>
          by_cases h6 : passes + 1 > 5
          · rw [resolveLoop_raise rows st passes hu h6]
            exact onePass_preserves rows st key p h
          · rw [resolveLoop_continue rows st passes hu h6]
            exact ih (passes + 1) (onePass rows st) key p (by omega)
              (onePass_preserves rows st key p h)

/-- Any run of the while loop preserves stations already resolved. -/
theorem resolveLoop_preserves (rows : List TieRow) (passes : Nat) (st : Stations)
    (key : String) (p : Point) (h : dictGetD st key = some p) :
    dictGetD (outTable (resolveLoop rows st passes)) key = some p :=
  resolveLoop_preserves_aux rows (6 - passes) passes st key p (le_refl _) h

/-- A failing run always raises with pass counter exactly 6. -/
theorem resolveLoop_err_passes_aux (rows : List TieRow) :
    ∀ (n passes : Nat) (st : Stations) (p : Nat) (st' : Stations),
      6 - passes ≤ n → passes ≤ 5 →
      resolveLoop rows st passes = ResolveOutcome.err p st' → p = 6 := by
  intro n
  induction n with
  | zero =>
      intro passes st p st' hn hb _
      omega
  | succ m ih =>
      intro passes st p st' hn hb heq
      cases hu : hasUnresolved st with
      | false =>
          rw [resolveLoop_done rows st passes hu] at heq
          exact ResolveOutcome.noConfusion heq
      | true =>
          by_cases h6 : passes + 1 > 5
          · rw [resolveLoop_raise rows st passes hu h6] at heq
            have : passes + 1 = p := (ResolveOutcome.err.injEq _ _ _ _).mp heq |>.1
            omega
          · rw [resolveLoop_continue rows st passes hu h6] at heq
            exact ih (passes + 1) (onePass rows st) p st' (by omega) (by omega) heq

end IceProcess

namespace IceProcess

/-! Key-set lemmas for the seeding scan. -/

theorem mem_keys_initStep (st : Stations) (row : TieRow) (m : String) :
    m ∈ keys (initStep st row) ↔ m ∈ keys st ∨ m = row.frm ∨ m = row.dst := by
  unfold initStep
  cases halt : row.alt <;> simp [mem_keys_dictSet] <;> tauto

theorem nodup_keys_initStep (st : Stations) (row : TieRow) :
    (keys st).Nodup → (keys (initStep st row)).Nodup := by
  intro h
  unfold initStep
  cases halt : row.alt <;>
    exact nodup_keys_dictSet _ _ _ (nodup_keys_dictSet _ _ _ h)

theorem mem_keys_foldl_init (rows : List TieRow) :
    ∀ (st : Stations) (m : String),
      m ∈ keys (rows.foldl initStep st) ↔
        m ∈ keys st ∨ m ∈ rows.map TieRow.frm ∨ m ∈ rows.map TieRow.dst := by
  induction rows with
  | nil =>
      intro st m
      simp
  | cons row rest ih =>
      intro st m
      simp only [List.foldl_cons, List.map_cons, List.mem_cons]
      rw [ih, mem_keys_initStep]
      tauto

theorem nodup_keys_initStations (rows : List TieRow) :
    (keys (initStations rows)).Nodup := by
  unfold initStations
  have hgen : ∀ st : Stations, (keys st).Nodup → (keys (rows.foldl initStep st)).Nodup := by
    induction rows with
    | nil => intro st h; exact h
    | cons row rest ih =>
        intro st h
        simp only [List.foldl_cons]
        exact ih _ (nodup_keys_initStep st row h)
  exact hgen [] (by simp [keys])

theorem mem_keys_initStations (rows : List TieRow) (m : String) :
    m ∈ keys (initStations rows) ↔
      m ∈ rows.map TieRow.frm ∨ m ∈ rows.map TieRow.dst := by
  unfold initStations
  rw [mem_keys_foldl_init]
  simp [keys]

/-! Concrete tie-in networks used by the resolver claims. -/

/-- Tie-in row `A0 → B0`, distance 5, azimuth 90, inclination 0, with the
anchor columns fixing `B0 = (5, 0, 0)` (`Alt m` is present and zero). -/
noncomputable def rowBackSight : TieRow :=
  ⟨"A0", "B0", 5, 90, 0, "", some 5, some 0, some 0⟩

/-- Tie-in row `A0 → B0` with no anchor columns: neither endpoint can ever
be placed. -/
noncomputable def rowUnanchored : TieRow :=
  ⟨"A0", "B0", 5, 90, 0, "", none, none, none⟩

theorem initStations_backSight :
    initStations [rowBackSight] = [("A0", none), ("B0", some ⟨5, 0, 0, none⟩)] := by
  simp [initStations, initStep, rowBackSight, dictSet, dictGetD, cellVal]

/-- The reversed-sight shot of the backward example: from `B0 = (5,0,0)`,
distance 5, azimuth `(90+180) mod 360`, inclination `-0`. -/
theorem backSight_shot :
    Point.shot ⟨5, 0, 0, none⟩ 5 (fmod (90 + 180) 360) (-1 * 0) 0 0 none
      = ⟨0, 0, 0, none⟩ := by
  rw [show ((-1 : ℝ) * 0) = 0 by ring, shot_plain]
  unfold shootBase
  simp [radians_zero, sin_radians_rev, cos_radians_rev, sin_radians_90, cos_radians_90]

theorem excel_tiein_backSight :
    excel_tiein [rowBackSight] =
      ResolveOutcome.ok [("A0", some ⟨0, 0, 0, none⟩), ("B0", some ⟨5, 0, 0, none⟩)] 1 := by
  have hshot : Point.shot ⟨5, 0, 0, none⟩ 5 (fmod (90 + 180) 360) 0 0 0 none
      = ⟨0, 0, 0, none⟩ := by
    rw [shot_plain]
    unfold shootBase
    simp [radians_zero, sin_radians_rev, cos_radians_rev, sin_radians_90, cos_radians_90]
  have hpass : onePass [rowBackSight] [("A0", none), ("B0", some ⟨5, 0, 0, none⟩)]
      = [("A0", some ⟨0, 0, 0, none⟩), ("B0", some ⟨5, 0, 0, none⟩)] := by
    simp only [onePass, List.foldl_cons, List.foldl_nil, propStep, rowBackSight, dictGetD,
      dictSet]
    simp [hshot]
  unfold excel_tiein
  rw [initStations_backSight]
  rw [resolveLoop_continue _ _ _ (by simp [hasUnresolved]) (by omega)]
  rw [hpass]
  rw [resolveLoop_done _ _ _ (by simp [hasUnresolved])]

theorem initStations_unanchored :
    initStations [rowUnanchored] = [("A0", none), ("B0", none)] := by
  simp [initStations, initStep, rowUnanchored, dictSet, dictGetD]

theorem onePass_unanchored_fix :
    onePass [rowUnanchored] [("A0", none), ("B0", none)] = [("A0", none), ("B0", none)] := by
  simp [onePass, propStep, rowUnanchored, dictGetD]

theorem excel_tiein_unanchored :
    excel_tiein [rowUnanchored] = ResolveOutcome.err 6 [("A0", none), ("B0", none)] := by
  unfold excel_tiein
  rw [initStations_unanchored]
  rw [resolveLoop_continue _ _ _ (by simp [hasUnresolved]) (by omega), onePass_unanchored_fix]
  rw [resolveLoop_continue _ _ _ (by simp [hasUnresolved]) (by omega), onePass_unanchored_fix]
  rw [resolveLoop_continue _ _ _ (by simp [hasUnresolved]) (by omega), onePass_unanchored_fix]
  rw [resolveLoop_continue _ _ _ (by simp [hasUnresolved]) (by omega), onePass_unanchored_fix]
  rw [resolveLoop_continue _ _ _ (by simp [hasUnresolved]) (by omega), onePass_unanchored_fix]
  rw [resolveLoop_raise _ _ _ (by simp [hasUnresolved]) (by omega), onePass_unanchored_fix]

end IceProcess

namespace IceProcess

/-- C6: one propagation entry behaves by cases — both endpoints already
resolved leaves the table unchanged; only `from` resolved places `to` by the
forward shot; only `to` resolved places `from` by the reversed sight
`shot(to_point, dist, (azm+180) mod 360, -inc)`; and on the concrete one-row
network `A0 → B0` (distance 5, azimuth 90, inclination 0) anchored at
`B0 = (5,0,0)`, the resolver returns `A0 = (0,0,0)` after one pass. -/
theorem C6_propagation_cases :
    (∀ (st : Stations) (row : TieRow) (pf pt : Point),
        dictGetD st row.frm = some pf → dictGetD st row.dst = some pt →
        propStep st row = st) ∧
    (∀ (st : Stations) (row : TieRow) (pf : Point),
        dictGetD st row.frm = some pf → dictGetD st row.dst = none →
        propStep st row =
          dictSet st row.dst (some (pf.shot row.dist row.azm row.inc 0 0 none))) ∧
    (∀ (st : Stations) (row : TieRow) (pt : Point),
        dictGetD st row.frm = none → dictGetD st row.dst = some pt →
        propStep st row =
          dictSet st row.frm
            (some (pt.shot row.dist (fmod (row.azm + 180) 360) (-1 * row.inc) 0 0 none))) ∧
    excel_tiein [rowBackSight] =
      ResolveOutcome.ok [("A0", some ⟨0, 0, 0, none⟩), ("B0", some ⟨5, 0, 0, none⟩)] 1 := by
  refine ⟨?_, ?_, ?_, excel_tiein_backSight⟩
  · intro st row pf pt hf ht
    unfold propStep
    rw [hf, ht]
  · intro st row pf hf ht
    unfold propStep
    rw [hf, ht]
  · intro st row pt hf ht
    unfold propStep
    rw [hf, ht]

/-- Witness for C6: on the table with both endpoints of the one anchored row
resolved, a propagation step changes nothing. -/
theorem C6_witness :
    propStep [("A0", some ⟨0, 0, 0, none⟩), ("B0", some ⟨5, 0, 0, none⟩)] rowBackSight
      = [("A0", some ⟨0, 0, 0, none⟩), ("B0", some ⟨5, 0, 0, none⟩)] :=
  C6_propagation_cases.1
    [("A0", some ⟨0, 0, 0, none⟩), ("B0", some ⟨5, 0, 0, none⟩)] rowBackSight
    ⟨0, 0, 0, none⟩ ⟨5, 0, 0, none⟩
    (by simp [rowBackSight, dictGetD]) (by simp [rowBackSight, dictGetD])

/-- C2, counterexample to the claimed pass bound: on the underdetermined
one-row network the resolver raises only after six passes, not after the
claimed maximum of five; the raised error does carry the partial table with
the unresolved stations. -/
theorem C2_counterexample :
    excel_tiein [rowUnanchored] = ResolveOutcome.err 6 [("A0", none), ("B0", none)] ∧
      5 < 6 :=
  ⟨excel_tiein_unanchored, by omega⟩

/-- C2 amended: a failing resolution run always raises with pass counter
exactly 6 (the `passes > 5` check fires after the sixth pass), so the loop
is bounded; the raised error carries the partial station table, which on the
concrete underdetermined network still names `A0` and `B0` as unresolved. -/
theorem C2_pass_bound (rows : List TieRow) (p : Nat) (st : Stations)
    (h : excel_tiein rows = ResolveOutcome.err p st) :
    p = 6 ∧ 5 < p ∧
      excel_tiein [rowUnanchored] = ResolveOutcome.err 6 [("A0", none), ("B0", none)] := by
  have hp : p = 6 :=
    resolveLoop_err_passes_aux rows 6 0 (initStations rows) p st (by omega) (by omega) h
  exact ⟨hp, by omega, excel_tiein_unanchored⟩

/-- Witness for C2: the amended bound applied to the concrete
underdetermined network. -/
theorem C2_witness :
    (6 : Nat) = 6 ∧ 5 < 6 ∧
      excel_tiein [rowUnanchored] = ResolveOutcome.err 6 [("A0", none), ("B0", none)] :=
  C2_pass_bound [rowUnanchored] 6 [("A0", none), ("B0", none)] excel_tiein_unanchored

/-- C8, counterexample to "anchor coordinates are never overwritten": two
tie-in rows that both mark `B0` as a fixed station, first at `(0,0,1)` and
then at `(0,0,2)`.  During the seeding scan of a single resolution run the
second row overwrites the anchor installed by the first. -/
theorem C8_counterexample :
    dictGetD (initStations [⟨"A0", "B0", 1, 0, 0, "", some 0, some 0, some 1⟩])
        "B0" = some ⟨0, 0, 1, none⟩ ∧
    initStations [⟨"A0", "B0", 1, 0, 0, "", some 0, some 0, some 1⟩,
        ⟨"A0", "B0", 1, 0, 0, "", some 0, some 0, some 2⟩] =
      initStep (initStations [⟨"A0", "B0", 1, 0, 0, "", some 0, some 0, some 1⟩])
        ⟨"A0", "B0", 1, 0, 0, "", some 0, some 0, some 2⟩ ∧
    dictGetD (initStations [⟨"A0", "B0", 1, 0, 0, "", some 0, some 0, some 1⟩,
        ⟨"A0", "B0", 1, 0, 0, "", some 0, some 0, some 2⟩])
        "B0" = some ⟨0, 0, 2, none⟩ := by
  refine ⟨?_, rfl, ?_⟩
  · simp [initStations, initStep, dictSet, dictGetD, cellVal]
  · simp [initStations, initStep, dictSet, dictGetD, cellVal]

/-- C8 amended: the station table's keys are duplicate-free and are exactly
the names appearing as `from` or `to` in the tie-in rows; a station already
resolved is never reassigned by a propagation pass; and every name resolved
at seeding time (anchors included) keeps that coordinate in the table
carried by the run's outcome.  (The seeding scan itself can overwrite an
earlier anchor for the same `to` name, per the counterexample.) -/
theorem C8_table_invariants (rows : List TieRow) :
    (keys (initStations rows)).Nodup ∧
    (∀ n, n ∈ keys (initStations rows) ↔
        n ∈ rows.map TieRow.frm ∨ n ∈ rows.map TieRow.dst) ∧
    (∀ (st : Stations) (key : String) (p : Point),
        dictGetD st key = some p → dictGetD (onePass rows st) key = some p) ∧
    (∀ (key : String) (p : Point),
        dictGetD (initStations rows) key = some p →
        dictGetD (outTable (excel_tiein rows)) key = some p) := by
  refine ⟨nodup_keys_initStations rows, mem_keys_initStations rows, ?_, ?_⟩
  · intro st key p h
    exact onePass_preserves rows st key p h
  · intro key p h
    exact resolveLoop_preserves rows 0 (initStations rows) key p h

/-- Witness for C8: the anchor `B0 = (5,0,0)` of the concrete backward-shot
network survives to the resolver's output table. -/
theorem C8_witness :
    dictGetD (outTable (excel_tiein [rowBackSight])) "B0" = some ⟨5, 0, 0, none⟩ :=
  (C8_table_invariants [rowBackSight]).2.2.2 "B0" ⟨5, 0, 0, none⟩
    (by rw [initStations_backSight]; simp [dictGetD])

end IceProcess

namespace IceProcess

/-- One row of a survey worksheet as read by `excel_survey` (`ice_process.py`
lines 274-279): columns `Point` (carried through as the point's name),
`Dist m`, `Azm`, `Inc`, `Down m`, `Back m`.  `Option` cells model a missing
column or an empty cell; `point = ""` models a missing `Point` cell
(`row.get('Point', '')`). -/
structure SurveyRow where
  point : String
  dist : Option ℝ
  azm : ℝ
  inc : ℝ
  down : Option ℝ
  back : Option ℝ

/-- The point yielded for one kept survey row:
`origin.shot(dist, azm, inc, down=down, back=back, name=name)`, with the raw
`Down m`/`Back m` cells passed through (missing/empty cells default to the
falsy `0.0`). -/
noncomputable def shotOfRow (origin : Point) (row : SurveyRow) : Point :=
  origin.shot (cellVal row.dist) row.azm row.inc (cellVal row.down) (cellVal row.back)
    (some row.point)

/-- `excel_survey` of `ice_process.py` (lines 273-280): the generator yields
one point per row, silently skipping any row whose `Dist m` cell is not
truthy (`if not row.get('Dist m', None): continue`). -/
noncomputable def excel_survey : List SurveyRow → Point → List Point
  | [], _ => []
  | row :: rest, origin =>
      (if cellTruthy row.dist then [shotOfRow origin row] else []) ++
        excel_survey rest origin

/-- Survey row with distance 5 at azimuth 0, inclination 0, carrying both a
down (2) and a back (3) measurement. -/
noncomputable def rowDownBack : SurveyRow := ⟨"1", some 5, 0, 0, some 2, some 3⟩

end IceProcess

namespace Ice2Dat

/-- Rational-valued spreadsheet cell of `ice2dat.py`: `none` models a
missing column or an empty cell. -/
def qVal (c : Option ℚ) : ℚ := c.getD 0

/-- Python truthiness of such a cell after `row.get(...)` defaulting:
`None`, `''` and `0.0` are all falsy. -/
def qTruthy (c : Option ℚ) : Prop := c.getD 0 ≠ 0

instance qTruthyDec (c : Option ℚ) : Decidable (qTruthy c) :=
  inferInstanceAs (Decidable (c.getD 0 ≠ 0))

/-- One row of a survey worksheet as read by `ice2survey` (`ice2dat.py`
lines 87-111): the `Point` cell is used as an integer station number. -/
structure Row where
  point : Option Nat
  azm : ℚ
  dist : Option ℚ
  inc : ℚ
  down : Option ℚ
  back : Option ℚ
deriving DecidableEq

/-- Python `int(row['Point'] or i + 1)`: the `Point` cell when truthy, else
the 1-based index of the row in the `enumerate` loop. -/
def pointNum : Option Nat → Nat → Nat
  | some n, i => if n = 0 then i + 1 else n
  | none, i => i + 1

/-- Python `'%02d' % n`: decimal digits left-padded with zeros to width 2. -/
def fmt02 (n : Nat) : String := if n < 10 then "0" ++ toString n else toString n

/-- Meters to feet, the external `davies.survey_math.m2ft` collaborator of
`ice2dat.py` (the exact conversion constant is irrelevant to the claims). -/
def m2ft (m : ℚ) : ℚ := m / 0.3048

/-- One Compass shot record as built by `compass.Shot(FROM=..., TO=...,
BEARING=..., INC=..., LENGTH=...)` — `frm`/`dst` are the FROM/TO station
names. -/
structure Shot where
  frm : String
  dst : String
  bearing : ℚ
  inc : ℚ
  length : ℚ
deriving DecidableEq

/-- `base_to = '%s%02d' % (survey_id, point)` for the row at index `i`. -/
def baseName (sid : String) (i : Nat) (row : Row) : String :=
  sid ++ fmt02 (pointNum row.point i)

/-- Destination of the main shot (`ice2dat.py` line 94): the bare base name
when the row carries down or back data, else the surface-marked `S_` name. -/
def mainTo (row : Row) (base : String) : String :=
  if qTruthy row.down ∨ qTruthy row.back then base else "S_" ++ base

/-- Destination of the down shot (line 100):
`'S_d'+base_to if not row.get('Back m') else 'd'+base_to`. -/
def downTo (row : Row) (base : String) : String :=
  if qTruthy row.back then "d" ++ base else "S_d" ++ base

/-- The shots appended for one survey row by the loop body of `ice2survey`
(`ice2dat.py` lines 87-111): nothing when the `Dist m` cell is not truthy;
otherwise the main shot from the survey origin, then the optional down shot
from the main destination, then the optional back shot — its FROM is the
down destination when a down measurement exists, else the main
destination. -/
def rowShots (sid org : String) (i : Nat) (row : Row) : List Shot :=
  if qTruthy row.dist then
    ⟨org, mainTo row (baseName sid i row), row.azm, row.inc, m2ft (qVal row.dist)⟩ ::
      ((if qTruthy row.down then
          [⟨mainTo row (baseName sid i row), downTo row (baseName sid i row), row.azm, -90,
            m2ft (qVal row.down)⟩]
        else []) ++
       (if qTruthy row.back then
          [⟨(if qTruthy row.down then downTo row (baseName sid i row)
             else mainTo row (baseName sid i row)),
            "S_b" ++ baseName sid i row, row.azm, 0, m2ft (qVal row.back)⟩]
        else []))
  else []

/-- The `for i, row in enumerate(rows)` loop of `ice2survey`, accumulating
the `survey.add_shot` calls in order. -/
def surveyShotsFrom (sid org : String) : Nat → List Row → List Shot
  | _, [] => []
  | i, row :: rest => rowShots sid org i row ++ surveyShotsFrom sid org (i + 1) rest

/-- Python `origin = survey_id + '0' if not origin else origin`. -/
def originName (sid : String) : Option String → String
  | none => sid ++ "0"
  | some s => if s = "" then sid ++ "0" else s

/-- `ice2survey` of `ice2dat.py` (lines 79-113): survey ids starting with
`S` (after upper-casing) are rejected, otherwise the enumerate loop builds
the survey's ordered shot list.  The returned `compass.Survey` is
abstracted to that list. -/
def ice2survey (sid : String) (org : Option String) (rows : List Row) :
    Except String (List Shot) :=
  if (sid.toUpper).startsWith "S" then
    Except.error "Station identifier S reserved for ice surface points"
  else Except.ok (surveyShotsFrom sid (originName sid org) 0 rows)

end Ice2Dat

/-- C1, counterexample: a survey shot carrying both a down and a back
measurement makes `excel_survey` emit exactly one point — not the claimed
three points in primary/down/back order. -/
theorem C1_counterexample :
    IceProcess.cellTruthy IceProcess.rowDownBack.down ∧
    IceProcess.cellTruthy IceProcess.rowDownBack.back ∧
    (IceProcess.excel_survey [IceProcess.rowDownBack] ⟨0, 0, 0, none⟩).length = 1 ∧
    (IceProcess.excel_survey [IceProcess.rowDownBack] ⟨0, 0, 0, none⟩).length ≠ 3 := by
  refine ⟨?_, ?_, ?_, ?_⟩ <;>
    norm_num [IceProcess.excel_survey, IceProcess.rowDownBack, IceProcess.cellTruthy]

/-- C1 amended: `excel_survey` emits exactly one point per shot with a
recorded distance — the endpoint of chaining the primary displacement with
the down and back offsets — while `ice2survey` emits between 1 and 3 shots
per such row, always the primary shot first, then the down shot when a down
measurement is present, then the back shot when a back measurement is
present, as the exhaustive case analysis of the emitted lists shows. -/
theorem C1_per_shot_emission :
    (∀ (row : IceProcess.SurveyRow) (rest : List IceProcess.SurveyRow)
        (origin : IceProcess.Point),
        IceProcess.cellTruthy row.dist →
        IceProcess.excel_survey (row :: rest) origin =
          IceProcess.shotOfRow origin row :: IceProcess.excel_survey rest origin) ∧
    (∀ (sid org : String) (i : Nat) (row : Ice2Dat.Row),
        Ice2Dat.qTruthy row.dist →
        (¬ Ice2Dat.qTruthy row.down → ¬ Ice2Dat.qTruthy row.back →
          Ice2Dat.rowShots sid org i row =
            [⟨org, "S_" ++ Ice2Dat.baseName sid i row, row.azm, row.inc,
              Ice2Dat.m2ft (Ice2Dat.qVal row.dist)⟩]) ∧
        (Ice2Dat.qTruthy row.down → ¬ Ice2Dat.qTruthy row.back →
          Ice2Dat.rowShots sid org i row =
            [⟨org, Ice2Dat.baseName sid i row, row.azm, row.inc,
              Ice2Dat.m2ft (Ice2Dat.qVal row.dist)⟩,
             ⟨Ice2Dat.baseName sid i row, "S_d" ++ Ice2Dat.baseName sid i row, row.azm, -90,
              Ice2Dat.m2ft (Ice2Dat.qVal row.down)⟩]) ∧
        (¬ Ice2Dat.qTruthy row.down → Ice2Dat.qTruthy row.back →
          Ice2Dat.rowShots sid org i row =
            [⟨org, Ice2Dat.baseName sid i row, row.azm, row.inc,
              Ice2Dat.m2ft (Ice2Dat.qVal row.dist)⟩,
             ⟨Ice2Dat.baseName sid i row, "S_b" ++ Ice2Dat.baseName sid i row, row.azm, 0,
              Ice2Dat.m2ft (Ice2Dat.qVal row.back)⟩]) ∧
        (Ice2Dat.qTruthy row.down → Ice2Dat.qTruthy row.back →
          Ice2Dat.rowShots sid org i row =
            [⟨org, Ice2Dat.baseName sid i row, row.azm, row.inc,
              Ice2Dat.m2ft (Ice2Dat.qVal row.dist)⟩,
             ⟨Ice2Dat.baseName sid i row, "d" ++ Ice2Dat.baseName sid i row, row.azm, -90,
              Ice2Dat.m2ft (Ice2Dat.qVal row.down)⟩,
             ⟨"d" ++ Ice2Dat.baseName sid i row, "S_b" ++ Ice2Dat.baseName sid i row,
              row.azm, 0, Ice2Dat.m2ft (Ice2Dat.qVal row.back)⟩])) := by
  constructor
  · intro row rest origin h
    simp [IceProcess.excel_survey, h]
  · intro sid org i row h
    refine ⟨?_, ?_, ?_, ?_⟩ <;> intro hdw hbk <;>
      simp [Ice2Dat.rowShots, Ice2Dat.mainTo, Ice2Dat.downTo, h, hdw, hbk]

/-- Witness for C1's amended statement: on a concrete row carrying both a
down and a back measurement, the emitted list is exactly primary shot, then
down shot, then back shot. -/
theorem C1_witness :
    Ice2Dat.rowShots "A" "A0" 0 ⟨some 1, 0, some 5, 0, some 2, some 3⟩ =
      [⟨"A0", Ice2Dat.baseName "A" 0 ⟨some 1, 0, some 5, 0, some 2, some 3⟩, 0, 0,
        Ice2Dat.m2ft (Ice2Dat.qVal (some 5))⟩,
       ⟨Ice2Dat.baseName "A" 0 ⟨some 1, 0, some 5, 0, some 2, some 3⟩,
        "d" ++ Ice2Dat.baseName "A" 0 ⟨some 1, 0, some 5, 0, some 2, some 3⟩, 0, -90,
        Ice2Dat.m2ft (Ice2Dat.qVal (some 2))⟩,
       ⟨"d" ++ Ice2Dat.baseName "A" 0 ⟨some 1, 0, some 5, 0, some 2, some 3⟩,
        "S_b" ++ Ice2Dat.baseName "A" 0 ⟨some 1, 0, some 5, 0, some 2, some 3⟩, 0, 0,
        Ice2Dat.m2ft (Ice2Dat.qVal (some 3))⟩] :=
  (C1_per_shot_emission.2 "A" "A0" 0 ⟨some 1, 0, some 5, 0, some 2, some 3⟩
    (by decide)).2.2.2 (by decide) (by decide)

/-- C5: a shot with no down/back data emits exactly one surface-marked
station `S_base`; a shot with both emits, in order, the primary shot to the
bare `base`, the down shot to the unprefixed `d`+base, and the back shot to
the surface-marked `S_b`+base whose FROM is the down station; and in
`Point.shot` the back offset is likewise applied to the down-shifted point,
not the primary destination. -/
theorem C5_station_naming (sid org : String) (i : Nat) (row : Ice2Dat.Row)
    (hd : Ice2Dat.qTruthy row.dist) :
    (¬ Ice2Dat.qTruthy row.down → ¬ Ice2Dat.qTruthy row.back →
      Ice2Dat.rowShots sid org i row =
        [⟨org, "S_" ++ Ice2Dat.baseName sid i row, row.azm, row.inc,
          Ice2Dat.m2ft (Ice2Dat.qVal row.dist)⟩]) ∧
    (Ice2Dat.qTruthy row.down → Ice2Dat.qTruthy row.back →
      Ice2Dat.rowShots sid org i row =
        [⟨org, Ice2Dat.baseName sid i row, row.azm, row.inc,
          Ice2Dat.m2ft (Ice2Dat.qVal row.dist)⟩,
         ⟨Ice2Dat.baseName sid i row, "d" ++ Ice2Dat.baseName sid i row, row.azm, -90,
          Ice2Dat.m2ft (Ice2Dat.qVal row.down)⟩,
         ⟨"d" ++ Ice2Dat.baseName sid i row, "S_b" ++ Ice2Dat.baseName sid i row, row.azm, 0,
          Ice2Dat.m2ft (Ice2Dat.qVal row.back)⟩]) ∧
    (∀ (origin : IceProcess.Point) (dist azm inc down back : ℝ),
        down ≠ 0 → back ≠ 0 →
        IceProcess.Point.shot origin dist azm inc down back none =
          IceProcess.shootBase
            (IceProcess.shootBase (IceProcess.shootBase origin dist azm inc) down 0 (-90))
            back azm 0) := by
  refine ⟨?_, ?_, ?_⟩
  · intro h1 h2
    simp [Ice2Dat.rowShots, Ice2Dat.mainTo, hd, h1, h2]
  · intro h1 h2
    simp [Ice2Dat.rowShots, Ice2Dat.mainTo, Ice2Dat.downTo, hd, h1, h2]
  · intro origin dist azm inc down back hdw hbk
    unfold IceProcess.Point.shot
    simp [hdw, hbk, IceProcess.nameTruthy]

/-- Witness for C5: a concrete bare surface shot gets the `S_` marker. -/
theorem C5_witness :
    Ice2Dat.rowShots "A" "A0" 0 ⟨some 3, 10, some 2, 5, none, none⟩ =
      [⟨"A0", "S_" ++ Ice2Dat.baseName "A" 0 ⟨some 3, 10, some 2, 5, none, none⟩, 10, 5,
        Ice2Dat.m2ft (Ice2Dat.qVal (some 2))⟩] :=
  (C5_station_naming "A" "A0" 0 ⟨some 3, 10, some 2, 5, none, none⟩ (by decide)).1
    (by decide) (by decide)

/-- C9: a survey row whose distance cell is not truthy is skipped silently —
deleting it from anywhere in the row list leaves `excel_survey`'s output
unchanged (so it contributes nothing and later rows keep their order), and
in `ice2survey` such a row contributes no shots. -/
theorem C9_skip_blank_rows (xs ys : List IceProcess.SurveyRow)
    (bad : IceProcess.SurveyRow) (origin : IceProcess.Point)
    (h : ¬ IceProcess.cellTruthy bad.dist) :
    IceProcess.excel_survey (xs ++ bad :: ys) origin =
      IceProcess.excel_survey (xs ++ ys) origin ∧
    (∀ (sid org : String) (i : Nat) (row : Ice2Dat.Row),
        ¬ Ice2Dat.qTruthy row.dist → Ice2Dat.rowShots sid org i row = []) := by
  constructor
  · induction xs with
    | nil => simp [IceProcess.excel_survey, h]
    | cons r rest ih => simp [IceProcess.excel_survey, ih]
  · intro sid org i row hr
    simp [Ice2Dat.rowShots, hr]

/-- Witness for C9: a distance-less row alone produces the same (empty)
output as no row at all. -/
theorem C9_witness :
    IceProcess.excel_survey ([] ++ ⟨"", none, 0, 0, none, none⟩ :: []) ⟨0, 0, 0, none⟩ =
      IceProcess.excel_survey ([] ++ []) ⟨0, 0, 0, none⟩ :=
  (C9_skip_blank_rows [] [] ⟨"", none, 0, 0, none, none⟩ ⟨0, 0, 0, none⟩
    (by simp [IceProcess.cellTruthy])).1

/-- C10: a down or back measurement recorded as `0.0` behaves exactly like
an absent one, in `ice2survey`'s emitted shots and names and in
`excel_survey`'s emitted point. -/
theorem C10_zero_is_absent :
    (∀ (sid org : String) (i : Nat) (pt : Option Nat) (azm : ℚ) (dist : Option ℚ)
        (inc : ℚ) (back : Option ℚ),
        Ice2Dat.rowShots sid org i ⟨pt, azm, dist, inc, some 0, back⟩ =
          Ice2Dat.rowShots sid org i ⟨pt, azm, dist, inc, none, back⟩) ∧
    (∀ (sid org : String) (i : Nat) (pt : Option Nat) (azm : ℚ) (dist : Option ℚ)
        (inc : ℚ) (down : Option ℚ),
        Ice2Dat.rowShots sid org i ⟨pt, azm, dist, inc, down, some 0⟩ =
          Ice2Dat.rowShots sid org i ⟨pt, azm, dist, inc, down, none⟩) ∧
    (∀ (origin : IceProcess.Point) (pname : String) (dist : Option ℝ) (azm inc : ℝ)
        (back : Option ℝ),
        IceProcess.excel_survey [⟨pname, dist, azm, inc, some 0, back⟩] origin =
          IceProcess.excel_survey [⟨pname, dist, azm, inc, none, back⟩] origin) ∧
    (∀ (origin : IceProcess.Point) (pname : String) (dist : Option ℝ) (azm inc : ℝ)
        (down : Option ℝ),
        IceProcess.excel_survey [⟨pname, dist, azm, inc, down, some 0⟩] origin =
          IceProcess.excel_survey [⟨pname, dist, azm, inc, down, none⟩] origin) := by
  refine ⟨?_, ?_, ?_, ?_⟩
  · intro sid org i pt azm dist inc back
    simp [Ice2Dat.rowShots, Ice2Dat.mainTo, Ice2Dat.downTo, Ice2Dat.baseName,
      Ice2Dat.qTruthy, Ice2Dat.qVal]
  · intro sid org i pt azm dist inc down
    simp [Ice2Dat.rowShots, Ice2Dat.mainTo, Ice2Dat.downTo, Ice2Dat.baseName,
      Ice2Dat.qTruthy, Ice2Dat.qVal]
  · intro origin pname dist azm inc back
    simp [IceProcess.excel_survey, IceProcess.shotOfRow, IceProcess.cellVal,
      IceProcess.cellTruthy]
  · intro origin pname dist azm inc down
    simp [IceProcess.excel_survey, IceProcess.shotOfRow, IceProcess.cellVal,
      IceProcess.cellTruthy]
